import Mathlib

/-!
# Verification of the xrb X11 wire codec

A shallow embedding of the codec paths of the `x11-libraries` repository:

* the `WindowConfigs` optional-field mask set together with its builder,
  accessors, `read_from` and `write_to` paths
  (`src/common/set/window_configs.rs`);
* the code shapes produced by the `xrbk_macro` generator for requests,
  replies, events and tagged-variant enums
  (`xrbk_macro/src/impls.rs`, `xrbk_macro/src/definition/expansion/writable.rs`).

Buffers are modelled as lists of byte values (`Nat`, each `< 256`).  Multi-byte
integers use the fixed big-endian order of the `bytes` crate primitives
(`put_u16`/`put_u32`); the codec fixes one byte order, and every statement
below is invariant under that choice.
-/

/-- Errors produced by the read path: a buffer underrun, or a tagged-variant
discriminant matching no known case.  Mirrors the `ReadError` kinds named in
the spec (`BufferUnderrun`, `UnrecognizedDiscriminant(raw)`). -/
inductive ReadError where
  | bufferUnderrun
  | unrecognizedDiscriminant (value : Nat)
deriving DecidableEq, Repr

/-- Result type of the read path. -/
abbrev ReadResult (α : Type) := Except ReadError α

instance {ε α : Type} [DecidableEq ε] [DecidableEq α] : DecidableEq (Except ε α) := fun a b =>
  match a, b with
  | .ok a, .ok b =>
    if h : a = b then .isTrue (by rw [h]) else .isFalse (by simp [h])
  | .error a, .error b =>
    if h : a = b then .isTrue (by rw [h]) else .isFalse (by simp [h])
  | .ok _, .error _ => .isFalse (by simp)
  | .error _, .ok _ => .isFalse (by simp)

/-! ## Buffer cursor primitives

Modelled from the spec: the `Buf`/`BufMut` cursor abstraction (`xrbk` crate,
not among the sampled sources) — a growable output sink of bytes and a
forward-only input cursor whose reads fail with an underrun error when fewer
bytes remain than requested. -/

/-- Append one byte (`BufMut::put_u8`); the value is reduced to a byte. -/
def putU8 (n : Nat) : List Nat := [n % 256]

/-- Append a 16-bit integer in the fixed (big-endian) byte order
(`BufMut::put_u16`). -/
def putU16 (n : Nat) : List Nat := [n / 256 % 256, n % 256]

/-- Append a 32-bit integer in the fixed byte order (`BufMut::put_u32`). -/
def putU32 (n : Nat) : List Nat :=
  [n / 16777216 % 256, n / 65536 % 256, n / 256 % 256, n % 256]

/-- Read one byte (`Buf::get_u8`). -/
def getU8 : List Nat → ReadResult (Nat × List Nat)
  | [] => .error .bufferUnderrun
  | b :: rest => .ok (b, rest)

/-- Read a 16-bit integer in the fixed byte order (`Buf::get_u16`). -/
def getU16 : List Nat → ReadResult (Nat × List Nat)
  | b1 :: b2 :: rest => .ok (b1 * 256 + b2, rest)
  | _ => .error .bufferUnderrun

/-- Read a 32-bit integer in the fixed byte order (`Buf::get_u32`). -/
def getU32 : List Nat → ReadResult (Nat × List Nat)
  | b1 :: b2 :: b3 :: b4 :: rest => .ok (((b1 * 256 + b2) * 256 + b3) * 256 + b4, rest)
  | _ => .error .bufferUnderrun

/-- Skip two bytes (`Buf::advance(2)`, used for the reserved gap after a
mask). -/
def advance2 : List Nat → ReadResult (List Nat)
  | _ :: _ :: rest => .ok rest
  | _ => .error .bufferUnderrun

theorem getU16_putU16 (n : Nat) (h : n < 65536) (rest : List Nat) :
    getU16 (putU16 n ++ rest) = .ok (n, rest) := by
  simp only [putU16, getU16, List.cons_append, List.nil_append, Except.ok.injEq,
    Prod.mk.injEq, and_true]
  omega

theorem getU32_putU32 (n : Nat) (h : n < 4294967296) (rest : List Nat) :
    getU32 (putU32 n ++ rest) = .ok (n, rest) := by
  simp only [putU32, getU32, List.cons_append, List.nil_append, Except.ok.injEq,
    Prod.mk.injEq, and_true]
  omega

/-! ## 32-bit slots for 16-bit logical values

The `i32`/`u32` `Writable`/`Readable` implementations come from the codec
crate (not among the sampled sources).  Modelled from the spec: fixed-width
scalars written into and read out of their slots in the fixed byte order;
signed values use the two's-complement wire form. -/

/-- Two's-complement wire form of an `i32`. -/
def i32ToWire (x : Int) : Nat := (x % 4294967296).toNat

/-- Interpret a 32-bit wire value as an `i32`. -/
def wireToI32 (n : Nat) : Int :=
  if n < 2147483648 then (n : Int) else (n : Int) - 4294967296

/-- Write an `i32` into its 4-byte slot (`i32::write_to`). -/
def putI32 (x : Int) : List Nat := putU32 (i32ToWire x)

/-- Read an `i32` out of its 4-byte slot (`i32::read_from`). -/
def getI32 (buf : List Nat) : ReadResult (Int × List Nat) :=
  match getU32 buf with
  | .ok (n, rest) => .ok (wireToI32 n, rest)
  | .error e => .error e

theorem i32ToWire_lt (x : Int) : i32ToWire x < 4294967296 := by
  unfold i32ToWire; omega

theorem wireToI32_i32ToWire (x : Int) (h1 : -2147483648 ≤ x) (h2 : x < 2147483648) :
    wireToI32 (i32ToWire x) = x := by
  unfold wireToI32 i32ToWire
  split <;> omega

theorem getI32_putI32 (x : Int) (h1 : -2147483648 ≤ x) (h2 : x < 2147483648)
    (rest : List Nat) : getI32 (putI32 x ++ rest) = .ok (x, rest) := by
  unfold getI32 putI32
  rw [getU32_putU32 _ (i32ToWire_lt x)]
  simp only [wireToI32_i32ToWire x h1 h2]

/-! ## Stacking modes

`StackMode` (re-exported through `crate::StackMode`) and the private
`__StackMode` wrapper that stores it in a 4-byte slot
(`src/common/set/window_configs.rs`, `__StackMode::read_from`/`write_to`).
The wrapper is a newtype; its payload is embedded directly. -/

inductive StackMode where
  | above
  | below
  | topIf
  | bottomIf
  | opposite
deriving DecidableEq, Repr

/-- The discriminant written for each stacking mode
(`__StackMode::write_to`). -/
def StackMode.wireValue : StackMode → Nat
  | .above => 0
  | .below => 1
  | .topIf => 2
  | .bottomIf => 3
  | .opposite => 4

/-- `__StackMode::write_to`: the mode's discriminant in a 4-byte slot. -/
def stackModeWrite (m : StackMode) : List Nat := putU32 m.wireValue

/-- `__StackMode::read_from`: read a `u32` and match the discriminant;
any other value fails with `UnrecognizedDiscriminant` carrying it. -/
def stackModeRead (buf : List Nat) : ReadResult (StackMode × List Nat) :=
  match getU32 buf with
  | .error e => .error e
  | .ok (discrim, rest) =>
    if discrim = 0 then .ok (.above, rest)
    else if discrim = 1 then .ok (.below, rest)
    else if discrim = 2 then .ok (.topIf, rest)
    else if discrim = 3 then .ok (.bottomIf, rest)
    else if discrim = 4 then .ok (.opposite, rest)
    else .error (.unrecognizedDiscriminant discrim)

theorem stackModeRead_stackModeWrite (m : StackMode) (rest : List Nat) :
    stackModeRead (stackModeWrite m ++ rest) = .ok (m, rest) := by
  unfold stackModeRead stackModeWrite
  rw [getU32_putU32 _ (by cases m <;> simp [StackMode.wireValue])]
  cases m <;> simp [StackMode.wireValue]

/-- Modelled from the spec: `Window` (defined outside the sampled sources) is
a window resource ID occupying a fixed 4-byte wire slot. -/
structure Window where
  id : Nat
deriving DecidableEq, Repr

/-- `Window::write_to`: the ID in a 4-byte slot. -/
def windowWrite (w : Window) : List Nat := putU32 w.id

/-- `Window::read_from`: read the 4-byte ID. -/
def windowRead (buf : List Nat) : ReadResult (Window × List Nat) :=
  match getU32 buf with
  | .ok (n, rest) => .ok (⟨n⟩, rest)
  | .error e => .error e

theorem windowRead_windowWrite (w : Window) (h : w.id < 4294967296)
    (rest : List Nat) : windowRead (windowWrite w ++ rest) = .ok (w, rest) := by
  unfold windowRead windowWrite
  rw [getU32_putU32 _ h]

/-! ## The window-configuration mask

`WindowConfigMask` is a `bitflags` struct over `u16` with one bit per
optional field, at the fixed positions given in the source
(`X = 0x0001` … `STACK_MODE = 0x0040`).  It is embedded as one `Bool` per
flag plus the bit-packing functions. -/

structure WindowConfigMask where
  x : Bool
  y : Bool
  width : Bool
  height : Bool
  border_width : Bool
  sibling : Bool
  stack_mode : Bool
deriving DecidableEq, Repr

/-- The empty mask (`WindowConfigMask::empty()`). -/
def WindowConfigMask.empty : WindowConfigMask :=
  ⟨false, false, false, false, false, false, false⟩

/-- Pack the mask into its `u16` bit pattern (bit positions from the
source's flag constants). -/
def WindowConfigMask.bits (m : WindowConfigMask) : Nat :=
  (cond m.x 1 0) + (cond m.y 2 0) + (cond m.width 4 0) + (cond m.height 8 0) +
    (cond m.border_width 16 0) + (cond m.sibling 32 0) + (cond m.stack_mode 64 0)

/-- Unpack a `u16` bit pattern into the mask's flags. -/
def WindowConfigMask.ofBits (n : Nat) : WindowConfigMask :=
  ⟨n.testBit 0, n.testBit 1, n.testBit 2, n.testBit 3, n.testBit 4,
    n.testBit 5, n.testBit 6⟩

/-- `WindowConfigMask::X11_SIZE`: the mask is a `u16`, two bytes. -/
def WindowConfigMask.X11_SIZE : Nat := 2

/-- Modelled from the spec: the derived `Writable` for the mask (derive-macro
output not among the sampled sources) writes the `u16` bit pattern. -/
def maskWrite (m : WindowConfigMask) : List Nat := putU16 m.bits

/-- Modelled from the spec: the derived `Readable` for the mask reads the
`u16` bit pattern at its fixed bit positions. -/
def maskRead (buf : List Nat) : ReadResult (WindowConfigMask × List Nat) :=
  match getU16 buf with
  | .ok (n, rest) => .ok (.ofBits n, rest)
  | .error e => .error e

theorem WindowConfigMask.bits_lt (m : WindowConfigMask) : m.bits < 65536 := by
  rcases m with ⟨a, b, c, d, e, f, g⟩
  cases a <;> cases b <;> cases c <;> cases d <;> cases e <;> cases f <;> cases g <;> decide

theorem WindowConfigMask.ofBits_bits (m : WindowConfigMask) :
    WindowConfigMask.ofBits m.bits = m := by
  rcases m with ⟨a, b, c, d, e, f, g⟩
  cases a <;> cases b <;> cases c <;> cases d <;> cases e <;> cases f <;> cases g <;> decide

theorem maskRead_maskWrite (m : WindowConfigMask) (rest : List Nat) :
    maskRead (maskWrite m ++ rest) = .ok (m, rest) := by
  unfold maskRead maskWrite
  rw [getU16_putU16 _ m.bits_lt]
  simp only [m.ofBits_bits]

/-! ## The `WindowConfigs` mask set -/

/-- `WindowConfigs` (`src/common/set/window_configs.rs`): the cached total
size, the mask, and the seven optional fields.  The 16-bit logical values
`x`, `y`, `width`, `height` and `border_width` are stored in their widened
32-bit internal representation, exactly as in the source. -/
structure WindowConfigs where
  x11_size : Nat
  mask : WindowConfigMask
  x : Option Int
  y : Option Int
  width : Option Nat
  height : Option Nat
  border_width : Option Nat
  sibling : Option Window
  stack_mode : Option StackMode
deriving DecidableEq, Repr

/-- Modelled from the spec: `read_set_value` lives in `src/common/set/mod.rs`,
which is not among the sampled sources.  Per the spec's mask-set read path,
for each presence bit that is set one field of that slot's fixed wire width
is read and its size added to the running size; an absent field is skipped
entirely and decodes as `None`. -/
def read_set_value (read1 : List Nat → ReadResult (α × List Nat)) (slotSize : Nat)
    (condition : Bool) (buf : List Nat) (sz : Nat) :
    ReadResult (Option α × List Nat × Nat) :=
  if condition then
    match read1 buf with
    | .ok (v, rest) => .ok (some v, rest, sz + slotSize)
    | .error e => .error e
  else
    .ok (none, buf, sz)

/-- `WindowConfigs::read_from`: read the mask, skip the two reserved bytes,
then read the present fields in the canonical order. -/
def WindowConfigs.read_from (buf : List Nat) : ReadResult WindowConfigs :=
  match maskRead buf with
  | .error e => .error e
  | .ok (mask, buf) =>
  match advance2 buf with
  | .error e => .error e
  | .ok buf =>
  match read_set_value getI32 4 mask.x buf (WindowConfigMask.X11_SIZE + 2) with
  | .error e => .error e
  | .ok (x, buf, sz) =>
  match read_set_value getI32 4 mask.y buf sz with
  | .error e => .error e
  | .ok (y, buf, sz) =>
  match read_set_value getU32 4 mask.width buf sz with
  | .error e => .error e
  | .ok (width, buf, sz) =>
  match read_set_value getU32 4 mask.height buf sz with
  | .error e => .error e
  | .ok (height, buf, sz) =>
  match read_set_value getU32 4 mask.border_width buf sz with
  | .error e => .error e
  | .ok (border_width, buf, sz) =>
  match read_set_value windowRead 4 mask.sibling buf sz with
  | .error e => .error e
  | .ok (sibling, buf, sz) =>
  match read_set_value stackModeRead 4 mask.stack_mode buf sz with
  | .error e => .error e
  | .ok (stack_mode, _, sz) =>
    .ok { x11_size := sz, mask, x, y, width, height, border_width, sibling, stack_mode }

/-- Serialize an optional field: present fields write their slot, absent
fields write nothing. -/
def optWrite (w : α → List Nat) : Option α → List Nat
  | none => []
  | some v => w v

/-- `WindowConfigs::write_to`: the mask, two zero reserved bytes
(`put_bytes(0, 2)`), then each present field in the canonical order. -/
def WindowConfigs.write_to (v : WindowConfigs) : List Nat :=
  maskWrite v.mask ++ [0, 0] ++
    optWrite putI32 v.x ++ optWrite putI32 v.y ++
    optWrite putU32 v.width ++ optWrite putU32 v.height ++
    optWrite putU32 v.border_width ++
    optWrite windowWrite v.sibling ++
    optWrite stackModeWrite v.stack_mode

/-- The mask whose bits record exactly which fields are present. -/
def WindowConfigs.presenceMask (v : WindowConfigs) : WindowConfigMask :=
  ⟨v.x.isSome, v.y.isSome, v.width.isSome, v.height.isSome,
    v.border_width.isSome, v.sibling.isSome, v.stack_mode.isSome⟩

/-! ## The builder -/

/-- `WindowConfigsBuilder`: the builder's fields keep their narrow logical
types (`i16`/`u16` values, represented here with `Int`/`Nat` payloads whose
range is the setters' parameter type range). -/
structure WindowConfigsBuilder where
  x11_size : Nat
  mask : WindowConfigMask
  x : Option Int
  y : Option Int
  width : Option Nat
  height : Option Nat
  border_width : Option Nat
  sibling : Option Window
  stack_mode : Option StackMode
deriving DecidableEq, Repr

/-- `WindowConfigsBuilder::new()`: every option starts as `None`; the size
starts at the mask's constant size. -/
def WindowConfigsBuilder.new : WindowConfigsBuilder :=
  { x11_size := WindowConfigMask.X11_SIZE
    mask := WindowConfigMask.empty
    x := none, y := none, width := none, height := none
    border_width := none, sibling := none, stack_mode := none }

/-- `WindowConfigsBuilder::x` (named `setX` here because the field `x`
occupies the source name): grow the size on first configuration, store the
value, set the presence bit. -/
def WindowConfigsBuilder.setX (b : WindowConfigsBuilder) (x : Int) : WindowConfigsBuilder :=
  { b with
    x11_size := if b.x = none then b.x11_size + 4 else b.x11_size
    x := some x
    mask := { b.mask with x := true } }

/-- `WindowConfigsBuilder::y`. -/
def WindowConfigsBuilder.setY (b : WindowConfigsBuilder) (y : Int) : WindowConfigsBuilder :=
  { b with
    x11_size := if b.y = none then b.x11_size + 4 else b.x11_size
    y := some y
    mask := { b.mask with y := true } }

/-- `WindowConfigsBuilder::width`. -/
def WindowConfigsBuilder.setWidth (b : WindowConfigsBuilder) (width : Nat) : WindowConfigsBuilder :=
  { b with
    x11_size := if b.width = none then b.x11_size + 4 else b.x11_size
    width := some width
    mask := { b.mask with width := true } }

/-- `WindowConfigsBuilder::height`. -/
def WindowConfigsBuilder.setHeight (b : WindowConfigsBuilder) (height : Nat) : WindowConfigsBuilder :=
  { b with
    x11_size := if b.height = none then b.x11_size + 4 else b.x11_size
    height := some height
    mask := { b.mask with height := true } }

/-- `WindowConfigsBuilder::border_width`. -/
def WindowConfigsBuilder.setBorderWidth (b : WindowConfigsBuilder) (bw : Nat) :
    WindowConfigsBuilder :=
  { b with
    x11_size := if b.border_width = none then b.x11_size + 4 else b.x11_size
    border_width := some bw
    mask := { b.mask with border_width := true } }

/-- `WindowConfigsBuilder::sibling`. -/
def WindowConfigsBuilder.setSibling (b : WindowConfigsBuilder) (w : Window) :
    WindowConfigsBuilder :=
  { b with
    x11_size := if b.sibling = none then b.x11_size + 4 else b.x11_size
    sibling := some w
    mask := { b.mask with sibling := true } }

/-- `WindowConfigsBuilder::stack_mode`. -/
def WindowConfigsBuilder.setStackMode (b : WindowConfigsBuilder) (m : StackMode) :
    WindowConfigsBuilder :=
  { b with
    x11_size := if b.stack_mode = none then b.x11_size + 4 else b.x11_size
    stack_mode := some m
    mask := { b.mask with stack_mode := true } }

/-- `WindowConfigsBuilder::build`: carry the accumulated size and mask over;
widen the 16-bit logical values into the 32-bit internal slots (the `Into`
conversions preserve the value; `__StackMode` is a transparent wrapper). -/
def WindowConfigsBuilder.build (b : WindowConfigsBuilder) : WindowConfigs :=
  { x11_size := b.x11_size
    mask := b.mask
    x := b.x, y := b.y, width := b.width, height := b.height
    border_width := b.border_width
    sibling := b.sibling
    stack_mode := b.stack_mode }

/-! ## Narrowing accessors

Each accessor narrows the stored 32-bit value back to its logical 16-bit
type through `try_into().expect(..)`.  The outer `Option` models the panic:
`none` is the `expect` failure, `some r` the returned `Option` value. -/

/-- `i32::try_into::<i16>()` as an `Option`. -/
def tryIntoI16 (v : Int) : Option Int :=
  if -32768 ≤ v ∧ v < 32768 then some v else none

/-- `u32::try_into::<u16>()` as an `Option`. -/
def tryIntoU16 (v : Nat) : Option Nat :=
  if v < 65536 then some v else none

/-- `WindowConfigs::x` accessor (named `getX` here; the field `x` occupies
the source name). -/
def WindowConfigs.getX (c : WindowConfigs) : Option (Option Int) :=
  match c.x with
  | none => some none
  | some v => (tryIntoI16 v).map some

/-- `WindowConfigs::y` accessor. -/
def WindowConfigs.getY (c : WindowConfigs) : Option (Option Int) :=
  match c.y with
  | none => some none
  | some v => (tryIntoI16 v).map some

/-- `WindowConfigs::width` accessor. -/
def WindowConfigs.getWidth (c : WindowConfigs) : Option (Option Nat) :=
  match c.width with
  | none => some none
  | some v => (tryIntoU16 v).map some

/-- `WindowConfigs::height` accessor. -/
def WindowConfigs.getHeight (c : WindowConfigs) : Option (Option Nat) :=
  match c.height with
  | none => some none
  | some v => (tryIntoU16 v).map some

/-- `WindowConfigs::border_width` accessor. -/
def WindowConfigs.getBorderWidth (c : WindowConfigs) : Option (Option Nat) :=
  match c.border_width with
  | none => some none
  | some v => (tryIntoU16 v).map some

/-! ## Round-trip of the mask-set codec -/

/-- The number of wire bytes an optional 4-byte-slot field contributes. -/
def optSize (o : Option α) : Nat := if o.isSome then 4 else 0

theorem read_set_value_opt {α : Type} (read1 : List Nat → ReadResult (α × List Nat))
    (w : α → List Nat) (v? : Option α)
    (hr : ∀ v rest, v? = some v → read1 (w v ++ rest) = .ok (v, rest))
    (rest : List Nat) (sz : Nat) :
    read_set_value read1 4 v?.isSome (optWrite w v? ++ rest) sz =
      .ok (v?, rest, sz + optSize v?) := by
  cases v? with
  | none => simp [read_set_value, optWrite, optSize]
  | some v => simp [read_set_value, optWrite, optSize, hr v rest rfl]

/-- Reading back the bytes written for a self-consistent `WindowConfigs`
(mask bits matching field presence, stored values fitting their 32-bit
slots) recovers every field exactly; the resulting cached size is the
mask-plus-gap size plus four bytes per present field. -/
theorem WindowConfigs.read_from_write_to (v : WindowConfigs)
    (hm : v.mask = v.presenceMask)
    (hx : ∀ a ∈ v.x, -2147483648 ≤ a ∧ a < 2147483648)
    (hy : ∀ a ∈ v.y, -2147483648 ≤ a ∧ a < 2147483648)
    (hw : ∀ a ∈ v.width, a < 4294967296)
    (hh : ∀ a ∈ v.height, a < 4294967296)
    (hb : ∀ a ∈ v.border_width, a < 4294967296)
    (hs : ∀ w ∈ v.sibling, w.id < 4294967296) :
    WindowConfigs.read_from v.write_to =
      .ok { v with
        x11_size := 4 + optSize v.x + optSize v.y + optSize v.width +
          optSize v.height + optSize v.border_width + optSize v.sibling +
          optSize v.stack_mode } := by
  have hx' : ∀ a rest, v.x = some a → getI32 (putI32 a ++ rest) = .ok (a, rest) :=
    fun a rest ha =>
      getI32_putI32 a (hx a (by simp [ha])).1 (hx a (by simp [ha])).2 rest
  have hy' : ∀ a rest, v.y = some a → getI32 (putI32 a ++ rest) = .ok (a, rest) :=
    fun a rest ha =>
      getI32_putI32 a (hy a (by simp [ha])).1 (hy a (by simp [ha])).2 rest
  have hw' : ∀ a rest, v.width = some a → getU32 (putU32 a ++ rest) = .ok (a, rest) :=
    fun a rest ha => getU32_putU32 a (hw a (by simp [ha])) rest
  have hh' : ∀ a rest, v.height = some a → getU32 (putU32 a ++ rest) = .ok (a, rest) :=
    fun a rest ha => getU32_putU32 a (hh a (by simp [ha])) rest
  have hb' : ∀ a rest, v.border_width = some a → getU32 (putU32 a ++ rest) = .ok (a, rest) :=
    fun a rest ha => getU32_putU32 a (hb a (by simp [ha])) rest
  have hs' : ∀ a rest, v.sibling = some a → windowRead (windowWrite a ++ rest) = .ok (a, rest) :=
    fun a rest ha => windowRead_windowWrite a (hs a (by simp [ha])) rest
  have hsm' : ∀ a rest, v.stack_mode = some a →
      stackModeRead (stackModeWrite a ++ rest) = .ok (a, rest) :=
    fun a rest _ => stackModeRead_stackModeWrite a rest
  unfold WindowConfigs.write_to WindowConfigs.read_from
  simp only [List.append_assoc]
  rw [← List.append_nil (optWrite stackModeWrite v.stack_mode)]
  rw [maskRead_maskWrite]
  simp only [List.cons_append, List.nil_append, advance2]
  rw [hm]
  simp only [WindowConfigs.presenceMask]
  simp only [read_set_value_opt getI32 putI32 v.x hx',
    read_set_value_opt getI32 putI32 v.y hy',
    read_set_value_opt getU32 putU32 v.width hw',
    read_set_value_opt getU32 putU32 v.height hh',
    read_set_value_opt getU32 putU32 v.border_width hb',
    read_set_value_opt windowRead windowWrite v.sibling hs',
    read_set_value_opt stackModeRead stackModeWrite v.stack_mode hsm']
  rfl

/-! ## Builder call sequences

The public way to construct a `WindowConfigs` is any sequence of builder
setter calls followed by `build`.  A `BuilderOp` is one setter call; its
argument ranges are those of the setter's Rust parameter type (`i16`,
`u16`, `u32`), recorded by `wf`. -/

inductive BuilderOp where
  | setX (v : Int)
  | setY (v : Int)
  | setWidth (v : Nat)
  | setHeight (v : Nat)
  | setBorderWidth (v : Nat)
  | setSibling (w : Window)
  | setStackMode (m : StackMode)
deriving DecidableEq, Repr

/-- One setter call. -/
def BuilderOp.apply (b : WindowConfigsBuilder) : BuilderOp → WindowConfigsBuilder
  | .setX v => b.setX v
  | .setY v => b.setY v
  | .setWidth v => b.setWidth v
  | .setHeight v => b.setHeight v
  | .setBorderWidth v => b.setBorderWidth v
  | .setSibling w => b.setSibling w
  | .setStackMode m => b.setStackMode m

/-- A whole call sequence. -/
def applyOps (ops : List BuilderOp) (b : WindowConfigsBuilder) : WindowConfigsBuilder :=
  ops.foldl BuilderOp.apply b

/-- The argument fits the setter's Rust parameter type. -/
def BuilderOp.wf : BuilderOp → Bool
  | .setX v => decide (-32768 ≤ v ∧ v < 32768)
  | .setY v => decide (-32768 ≤ v ∧ v < 32768)
  | .setWidth v => decide (v < 65536)
  | .setHeight v => decide (v < 65536)
  | .setBorderWidth v => decide (v < 65536)
  | .setSibling w => decide (w.id < 4294967296)
  | .setStackMode _ => true

/-- The builder-side presence invariant: each mask bit equals the presence
of its field. -/
def BuilderMaskInv (b : WindowConfigsBuilder) : Prop :=
  b.mask = ⟨b.x.isSome, b.y.isSome, b.width.isSome, b.height.isSome,
    b.border_width.isSome, b.sibling.isSome, b.stack_mode.isSome⟩

theorem BuilderOp.apply_maskInv {b : WindowConfigsBuilder} (h : BuilderMaskInv b)
    (op : BuilderOp) : BuilderMaskInv (BuilderOp.apply b op) := by
  cases op <;>
    simp_all [BuilderMaskInv, BuilderOp.apply, WindowConfigsBuilder.setX,
      WindowConfigsBuilder.setY, WindowConfigsBuilder.setWidth,
      WindowConfigsBuilder.setHeight, WindowConfigsBuilder.setBorderWidth,
      WindowConfigsBuilder.setSibling, WindowConfigsBuilder.setStackMode]

theorem applyOps_maskInv (ops : List BuilderOp) :
    ∀ b : WindowConfigsBuilder, BuilderMaskInv b → BuilderMaskInv (applyOps ops b) := by
  induction ops with
  | nil => intro b h; exact h
  | cons op rest ih =>
    intro b h
    exact ih (BuilderOp.apply b op) (BuilderOp.apply_maskInv h op)

/-- `read_set_value` returns a present value exactly when its presence bit
was set. -/
theorem read_set_value_isSome {α : Type} {read1 : List Nat → ReadResult (α × List Nat)}
    {slotSize : Nat} {c : Bool} {buf : List Nat} {sz : Nat}
    {v? : Option α} {rest : List Nat} {sz' : Nat}
    (h : read_set_value read1 slotSize c buf sz = .ok (v?, rest, sz')) :
    v?.isSome = c := by
  cases c with
  | false =>
    simp only [read_set_value, if_neg] at h
    cases h
    rfl
  | true =>
    simp only [read_set_value, if_pos] at h
    cases hr : read1 buf with
    | ok p =>
      rw [hr] at h
      cases h
      rfl
    | error e => rw [hr] at h; cases h

/-! ## Last-written values of a builder call sequence -/

/-- Fold step recording the last `setX` argument. -/
def updX (acc : Option Int) : BuilderOp → Option Int
  | .setX v => some v
  | _ => acc

/-- Fold step recording the last `setY` argument. -/
def updY (acc : Option Int) : BuilderOp → Option Int
  | .setY v => some v
  | _ => acc

/-- Fold step recording the last `setWidth` argument. -/
def updWidth (acc : Option Nat) : BuilderOp → Option Nat
  | .setWidth v => some v
  | _ => acc

/-- Fold step recording the last `setHeight` argument. -/
def updHeight (acc : Option Nat) : BuilderOp → Option Nat
  | .setHeight v => some v
  | _ => acc

/-- Fold step recording the last `setBorderWidth` argument. -/
def updBorderWidth (acc : Option Nat) : BuilderOp → Option Nat
  | .setBorderWidth v => some v
  | _ => acc

/-- The argument of the last `setX` call of the sequence, if any. -/
def lastSetX (ops : List BuilderOp) : Option Int := ops.foldl updX none

/-- The argument of the last `setY` call of the sequence, if any. -/
def lastSetY (ops : List BuilderOp) : Option Int := ops.foldl updY none

/-- The argument of the last `setWidth` call of the sequence, if any. -/
def lastSetWidth (ops : List BuilderOp) : Option Nat := ops.foldl updWidth none

/-- The argument of the last `setHeight` call of the sequence, if any. -/
def lastSetHeight (ops : List BuilderOp) : Option Nat := ops.foldl updHeight none

/-- The argument of the last `setBorderWidth` call of the sequence, if any. -/
def lastSetBorderWidth (ops : List BuilderOp) : Option Nat :=
  ops.foldl updBorderWidth none

theorem applyOps_field_x (ops : List BuilderOp) :
    ∀ b : WindowConfigsBuilder, (applyOps ops b).x = ops.foldl updX b.x := by
  induction ops with
  | nil => intro b; rfl
  | cons op rest ih =>
    intro b
    have step : (BuilderOp.apply b op).x = updX b.x op := by
      cases op <;> rfl
    calc (applyOps (op :: rest) b).x
        = (applyOps rest (BuilderOp.apply b op)).x := rfl
      _ = rest.foldl updX (BuilderOp.apply b op).x := ih (BuilderOp.apply b op)
      _ = rest.foldl updX (updX b.x op) := by rw [step]

theorem applyOps_field_y (ops : List BuilderOp) :
    ∀ b : WindowConfigsBuilder, (applyOps ops b).y = ops.foldl updY b.y := by
  induction ops with
  | nil => intro b; rfl
  | cons op rest ih =>
    intro b
    have step : (BuilderOp.apply b op).y = updY b.y op := by
      cases op <;> rfl
    calc (applyOps (op :: rest) b).y
        = rest.foldl updY (BuilderOp.apply b op).y := ih (BuilderOp.apply b op)
      _ = rest.foldl updY (updY b.y op) := by rw [step]

theorem applyOps_field_width (ops : List BuilderOp) :
    ∀ b : WindowConfigsBuilder, (applyOps ops b).width = ops.foldl updWidth b.width := by
  induction ops with
  | nil => intro b; rfl
  | cons op rest ih =>
    intro b
    have step : (BuilderOp.apply b op).width = updWidth b.width op := by
      cases op <;> rfl
    calc (applyOps (op :: rest) b).width
        = rest.foldl updWidth (BuilderOp.apply b op).width := ih (BuilderOp.apply b op)
      _ = rest.foldl updWidth (updWidth b.width op) := by rw [step]

theorem applyOps_field_height (ops : List BuilderOp) :
    ∀ b : WindowConfigsBuilder, (applyOps ops b).height = ops.foldl updHeight b.height := by
  induction ops with
  | nil => intro b; rfl
  | cons op rest ih =>
    intro b
    have step : (BuilderOp.apply b op).height = updHeight b.height op := by
      cases op <;> rfl
    calc (applyOps (op :: rest) b).height
        = rest.foldl updHeight (BuilderOp.apply b op).height := ih (BuilderOp.apply b op)
      _ = rest.foldl updHeight (updHeight b.height op) := by rw [step]

theorem applyOps_field_border_width (ops : List BuilderOp) :
    ∀ b : WindowConfigsBuilder,
      (applyOps ops b).border_width = ops.foldl updBorderWidth b.border_width := by
  induction ops with
  | nil => intro b; rfl
  | cons op rest ih =>
    intro b
    have step : (BuilderOp.apply b op).border_width = updBorderWidth b.border_width op := by
      cases op <;> rfl
    calc (applyOps (op :: rest) b).border_width
        = rest.foldl updBorderWidth (BuilderOp.apply b op).border_width :=
          ih (BuilderOp.apply b op)
      _ = rest.foldl updBorderWidth (updBorderWidth b.border_width op) := by rw [step]

theorem foldl_updX_range (ops : List BuilderOp) :
    ∀ init : Option Int, (∀ op ∈ ops, op.wf = true) →
      (∀ a ∈ init, -32768 ≤ a ∧ a < 32768) →
      ∀ a ∈ ops.foldl updX init, -32768 ≤ a ∧ a < 32768 := by
  induction ops with
  | nil => intro init _ hinit; exact hinit
  | cons op rest ih =>
    intro init hwf hinit
    refine ih (updX init op) (fun o ho => hwf o (List.mem_cons_of_mem op ho)) ?_
    cases op with
    | setX v =>
      intro a ha
      have := hwf (.setX v) (List.mem_cons_self _ _)
      simp only [BuilderOp.wf, decide_eq_true_eq] at this
      simp only [updX, Option.mem_def, Option.some.injEq] at ha
      omega
    | setY v => exact hinit
    | setWidth v => exact hinit
    | setHeight v => exact hinit
    | setBorderWidth v => exact hinit
    | setSibling w => exact hinit
    | setStackMode m => exact hinit

theorem foldl_updY_range (ops : List BuilderOp) :
    ∀ init : Option Int, (∀ op ∈ ops, op.wf = true) →
      (∀ a ∈ init, -32768 ≤ a ∧ a < 32768) →
      ∀ a ∈ ops.foldl updY init, -32768 ≤ a ∧ a < 32768 := by
  induction ops with
  | nil => intro init _ hinit; exact hinit
  | cons op rest ih =>
    intro init hwf hinit
    refine ih (updY init op) (fun o ho => hwf o (List.mem_cons_of_mem op ho)) ?_
    cases op with
    | setY v =>
      intro a ha
      have := hwf (.setY v) (List.mem_cons_self _ _)
      simp only [BuilderOp.wf, decide_eq_true_eq] at this
      simp only [updY, Option.mem_def, Option.some.injEq] at ha
      omega
    | setX v => exact hinit
    | setWidth v => exact hinit
    | setHeight v => exact hinit
    | setBorderWidth v => exact hinit
    | setSibling w => exact hinit
    | setStackMode m => exact hinit

theorem foldl_updWidth_range (ops : List BuilderOp) :
    ∀ init : Option Nat, (∀ op ∈ ops, op.wf = true) →
      (∀ a ∈ init, a < 65536) →
      ∀ a ∈ ops.foldl updWidth init, a < 65536 := by
  induction ops with
  | nil => intro init _ hinit; exact hinit
  | cons op rest ih =>
    intro init hwf hinit
    refine ih (updWidth init op) (fun o ho => hwf o (List.mem_cons_of_mem op ho)) ?_
    cases op with
    | setWidth v =>
      intro a ha
      have := hwf (.setWidth v) (List.mem_cons_self _ _)
      simp only [BuilderOp.wf, decide_eq_true_eq] at this
      simp only [updWidth, Option.mem_def, Option.some.injEq] at ha
      omega
    | setX v => exact hinit
    | setY v => exact hinit
    | setHeight v => exact hinit
    | setBorderWidth v => exact hinit
    | setSibling w => exact hinit
    | setStackMode m => exact hinit

theorem foldl_updHeight_range (ops : List BuilderOp) :
    ∀ init : Option Nat, (∀ op ∈ ops, op.wf = true) →
      (∀ a ∈ init, a < 65536) →
      ∀ a ∈ ops.foldl updHeight init, a < 65536 := by
  induction ops with
  | nil => intro init _ hinit; exact hinit
  | cons op rest ih =>
    intro init hwf hinit
    refine ih (updHeight init op) (fun o ho => hwf o (List.mem_cons_of_mem op ho)) ?_
    cases op with
    | setHeight v =>
      intro a ha
      have := hwf (.setHeight v) (List.mem_cons_self _ _)
      simp only [BuilderOp.wf, decide_eq_true_eq] at this
      simp only [updHeight, Option.mem_def, Option.some.injEq] at ha
      omega
    | setX v => exact hinit
    | setY v => exact hinit
    | setWidth v => exact hinit
    | setBorderWidth v => exact hinit
    | setSibling w => exact hinit
    | setStackMode m => exact hinit

theorem foldl_updBorderWidth_range (ops : List BuilderOp) :
    ∀ init : Option Nat, (∀ op ∈ ops, op.wf = true) →
      (∀ a ∈ init, a < 65536) →
      ∀ a ∈ ops.foldl updBorderWidth init, a < 65536 := by
  induction ops with
  | nil => intro init _ hinit; exact hinit
  | cons op rest ih =>
    intro init hwf hinit
    refine ih (updBorderWidth init op) (fun o ho => hwf o (List.mem_cons_of_mem op ho)) ?_
    cases op with
    | setBorderWidth v =>
      intro a ha
      have := hwf (.setBorderWidth v) (List.mem_cons_self _ _)
      simp only [BuilderOp.wf, decide_eq_true_eq] at this
      simp only [updBorderWidth, Option.mem_def, Option.some.injEq] at ha
      omega
    | setX v => exact hinit
    | setY v => exact hinit
    | setWidth v => exact hinit
    | setHeight v => exact hinit
    | setSibling w => exact hinit
    | setStackMode m => exact hinit

/-! ## Claim theorems for the mask-set codec -/

/-- An arbitrary self-consistent mask set: the mask's bits record exactly
which of the seven optional fields are present (the cached size is left
arbitrary, since the codec paths never consult it). -/
def mkConfigs (sz : Nat) (x? y? : Option Int) (w? h? bw? : Option Nat)
    (sib? : Option Window) (sm? : Option StackMode) : WindowConfigs :=
  { x11_size := sz
    mask := ⟨x?.isSome, y?.isSome, w?.isSome, h?.isSome, bw?.isSome,
      sib?.isSome, sm?.isSome⟩
    x := x?, y := y?, width := w?, height := h?, border_width := bw?
    sibling := sib?, stack_mode := sm? }

/-- C1.  The claimed round-trip law fails on the code: the builder starts its
cached size at the mask's two bytes and never accounts for the two reserved
gap bytes that `write_to` emits and `read_from` counts.  For the empty built
set, the reported `x11_size` is `2` while `write_to` emits `4` bytes, and
decoding the encoding yields a value whose `x11_size` is `4` — not equal to
the value encoded. -/
theorem C1_builder_size_gap_bug :
    (WindowConfigsBuilder.new.build).x11_size = 2 ∧
    (WindowConfigsBuilder.new.build).write_to.length = 4 ∧
    WindowConfigs.read_from (WindowConfigsBuilder.new.build).write_to =
      .ok { WindowConfigsBuilder.new.build with x11_size := 4 } ∧
    WindowConfigs.read_from (WindowConfigsBuilder.new.build).write_to ≠
      .ok (WindowConfigsBuilder.new.build) := by
  refine ⟨rfl, rfl, rfl, ?_⟩
  intro h
  have := Except.ok.inj h
  have h2 := congrArg WindowConfigs.x11_size this
  simp [WindowConfigsBuilder.new, WindowConfigsBuilder.build] at h2

/-- C3.  Encoding a mask set with an arbitrary subset of the seven optional
fields present writes the mask, the 2-byte reserved gap, then only the
present fields in the canonical order x, y, width, height, border-width,
sibling, stack-mode; decoding that encoding yields exactly the same subset
present with exactly the same values, absent fields decoding as `none`. -/
theorem C3_mask_set_subset_roundtrip (sz : Nat) (x? y? : Option Int)
    (w? h? bw? : Option Nat) (sib? : Option Window) (sm? : Option StackMode)
    (hx : ∀ a ∈ x?, -2147483648 ≤ a ∧ a < 2147483648)
    (hy : ∀ a ∈ y?, -2147483648 ≤ a ∧ a < 2147483648)
    (hw : ∀ a ∈ w?, a < 4294967296)
    (hh : ∀ a ∈ h?, a < 4294967296)
    (hb : ∀ a ∈ bw?, a < 4294967296)
    (hs : ∀ w ∈ sib?, w.id < 4294967296) :
    (mkConfigs sz x? y? w? h? bw? sib? sm?).write_to =
      maskWrite (mkConfigs sz x? y? w? h? bw? sib? sm?).mask ++ [0, 0] ++
        optWrite putI32 x? ++ optWrite putI32 y? ++ optWrite putU32 w? ++
        optWrite putU32 h? ++ optWrite putU32 bw? ++
        optWrite windowWrite sib? ++ optWrite stackModeWrite sm? ∧
    ∃ v', WindowConfigs.read_from (mkConfigs sz x? y? w? h? bw? sib? sm?).write_to =
        .ok v' ∧
      v'.x = x? ∧ v'.y = y? ∧ v'.width = w? ∧ v'.height = h? ∧
      v'.border_width = bw? ∧ v'.sibling = sib? ∧ v'.stack_mode = sm? := by
  refine ⟨rfl, ?_⟩
  refine ⟨_, WindowConfigs.read_from_write_to (mkConfigs sz x? y? w? h? bw? sib? sm?)
    rfl hx hy hw hh hb hs, ?_⟩
  exact ⟨rfl, rfl, rfl, rfl, rfl, rfl, rfl⟩

/-- Witness for C3 at a concrete subset: x and stack-mode present, the rest
absent. -/
theorem C3_mask_set_subset_roundtrip_witness :
    (mkConfigs 10 (some (-2)) none none none none none (some .below)).write_to =
      maskWrite (mkConfigs 10 (some (-2)) none none none none none (some .below)).mask ++
        [0, 0] ++ optWrite putI32 (some (-2)) ++ optWrite putI32 none ++
        optWrite putU32 none ++ optWrite putU32 none ++ optWrite putU32 none ++
        optWrite windowWrite none ++ optWrite stackModeWrite (some .below) ∧
    ∃ v', WindowConfigs.read_from
        (mkConfigs 10 (some (-2)) none none none none none (some .below)).write_to =
        .ok v' ∧
      v'.x = some (-2) ∧ v'.y = none ∧ v'.width = none ∧ v'.height = none ∧
      v'.border_width = none ∧ v'.sibling = none ∧ v'.stack_mode = some .below :=
  C3_mask_set_subset_roundtrip 10 (some (-2)) none none none none none (some .below)
    (by intro a ha; simp only [Option.mem_def, Option.some.injEq] at ha; omega)
    (by intro a ha; simp at ha)
    (by intro a ha; simp at ha)
    (by intro a ha; simp at ha)
    (by intro a ha; simp at ha)
    (by intro a ha; simp at ha)

/-- C6.  A set built with `x = -1` survives its widened 4-byte wire slot:
after encoding and decoding, the `x` accessor returns exactly the 16-bit
value `-1` (no panic, no truncation, no sign corruption); and in general
every `i16`/`u16` value set through the builder survives the 32-bit slot
round-trip unchanged. -/
theorem C6_sixteen_in_thirtytwo_roundtrip :
    (∃ c, WindowConfigs.read_from
        ((WindowConfigsBuilder.new.setX (-1)).build).write_to = .ok c ∧
      c.getX = some (some (-1))) ∧
    ∀ (x y : Int) (w h bw : Nat),
      -32768 ≤ x → x < 32768 → -32768 ≤ y → y < 32768 →
      w < 65536 → h < 65536 → bw < 65536 →
      ∃ c, WindowConfigs.read_from
          ((((((WindowConfigsBuilder.new.setX x).setY y).setWidth w).setHeight
            h).setBorderWidth bw).build).write_to = .ok c ∧
        c.getX = some (some x) ∧ c.getY = some (some y) ∧
        c.getWidth = some (some w) ∧ c.getHeight = some (some h) ∧
        c.getBorderWidth = some (some bw) := by
  constructor
  · refine ⟨_, WindowConfigs.read_from_write_to
      ((WindowConfigsBuilder.new.setX (-1)).build) rfl
      (by intro a ha; simp [WindowConfigsBuilder.new, WindowConfigsBuilder.setX, WindowConfigsBuilder.setY, WindowConfigsBuilder.setWidth, WindowConfigsBuilder.setHeight, WindowConfigsBuilder.setBorderWidth, WindowConfigsBuilder.build] at ha; omega)
      (by intro a ha; simp [WindowConfigsBuilder.new, WindowConfigsBuilder.setX, WindowConfigsBuilder.setY, WindowConfigsBuilder.setWidth, WindowConfigsBuilder.setHeight, WindowConfigsBuilder.setBorderWidth, WindowConfigsBuilder.build] at ha)
      (by intro a ha; simp [WindowConfigsBuilder.new, WindowConfigsBuilder.setX, WindowConfigsBuilder.setY, WindowConfigsBuilder.setWidth, WindowConfigsBuilder.setHeight, WindowConfigsBuilder.setBorderWidth, WindowConfigsBuilder.build] at ha)
      (by intro a ha; simp [WindowConfigsBuilder.new, WindowConfigsBuilder.setX, WindowConfigsBuilder.setY, WindowConfigsBuilder.setWidth, WindowConfigsBuilder.setHeight, WindowConfigsBuilder.setBorderWidth, WindowConfigsBuilder.build] at ha)
      (by intro a ha; simp [WindowConfigsBuilder.new, WindowConfigsBuilder.setX, WindowConfigsBuilder.setY, WindowConfigsBuilder.setWidth, WindowConfigsBuilder.setHeight, WindowConfigsBuilder.setBorderWidth, WindowConfigsBuilder.build] at ha)
      (by intro a ha; simp [WindowConfigsBuilder.new, WindowConfigsBuilder.setX, WindowConfigsBuilder.setY, WindowConfigsBuilder.setWidth, WindowConfigsBuilder.setHeight, WindowConfigsBuilder.setBorderWidth, WindowConfigsBuilder.build] at ha), ?_⟩
    decide
  · intro x y w h bw hx1 hx2 hy1 hy2 hw hh hb
    refine ⟨_, WindowConfigs.read_from_write_to
      ((((((WindowConfigsBuilder.new.setX x).setY y).setWidth w).setHeight
        h).setBorderWidth bw).build) rfl
      (by intro a ha; simp [WindowConfigsBuilder.new, WindowConfigsBuilder.setX, WindowConfigsBuilder.setY, WindowConfigsBuilder.setWidth, WindowConfigsBuilder.setHeight, WindowConfigsBuilder.setBorderWidth, WindowConfigsBuilder.build] at ha; omega)
      (by intro a ha; simp [WindowConfigsBuilder.new, WindowConfigsBuilder.setX, WindowConfigsBuilder.setY, WindowConfigsBuilder.setWidth, WindowConfigsBuilder.setHeight, WindowConfigsBuilder.setBorderWidth, WindowConfigsBuilder.build] at ha; omega)
      (by intro a ha; simp [WindowConfigsBuilder.new, WindowConfigsBuilder.setX, WindowConfigsBuilder.setY, WindowConfigsBuilder.setWidth, WindowConfigsBuilder.setHeight, WindowConfigsBuilder.setBorderWidth, WindowConfigsBuilder.build] at ha; omega)
      (by intro a ha; simp [WindowConfigsBuilder.new, WindowConfigsBuilder.setX, WindowConfigsBuilder.setY, WindowConfigsBuilder.setWidth, WindowConfigsBuilder.setHeight, WindowConfigsBuilder.setBorderWidth, WindowConfigsBuilder.build] at ha; omega)
      (by intro a ha; simp [WindowConfigsBuilder.new, WindowConfigsBuilder.setX, WindowConfigsBuilder.setY, WindowConfigsBuilder.setWidth, WindowConfigsBuilder.setHeight, WindowConfigsBuilder.setBorderWidth, WindowConfigsBuilder.build] at ha; omega)
      (by intro a ha; simp [WindowConfigsBuilder.new, WindowConfigsBuilder.setX, WindowConfigsBuilder.setY, WindowConfigsBuilder.setWidth, WindowConfigsBuilder.setHeight, WindowConfigsBuilder.setBorderWidth, WindowConfigsBuilder.build] at ha), ?_⟩
    have e1 : tryIntoI16 x = some x := by unfold tryIntoI16; rw [if_pos ⟨hx1, hx2⟩]
    have e2 : tryIntoI16 y = some y := by unfold tryIntoI16; rw [if_pos ⟨hy1, hy2⟩]
    have e3 : tryIntoU16 w = some w := by unfold tryIntoU16; rw [if_pos hw]
    have e4 : tryIntoU16 h = some h := by unfold tryIntoU16; rw [if_pos hh]
    have e5 : tryIntoU16 bw = some bw := by unfold tryIntoU16; rw [if_pos hb]
    refine ⟨?_, ?_, ?_, ?_, ?_⟩
    · show (tryIntoI16 x).map some = some (some x)
      rw [e1]; rfl
    · show (tryIntoI16 y).map some = some (some y)
      rw [e2]; rfl
    · show (tryIntoU16 w).map some = some (some w)
      rw [e3]; rfl
    · show (tryIntoU16 h).map some = some (some h)
      rw [e4]; rfl
    · show (tryIntoU16 bw).map some = some (some bw)
      rw [e5]; rfl

/-- Witness for C6's general part at `x = -7`, `y = 3`, `width = 2`,
`height = 1`, `border_width = 0`. -/
theorem C6_sixteen_in_thirtytwo_roundtrip_witness :
    ∃ c, WindowConfigs.read_from
        ((((((WindowConfigsBuilder.new.setX (-7)).setY 3).setWidth 2).setHeight
          1).setBorderWidth 0).build).write_to = .ok c ∧
      c.getX = some (some (-7)) ∧ c.getY = some (some 3) ∧
      c.getWidth = some (some 2) ∧ c.getHeight = some (some 1) ∧
      c.getBorderWidth = some (some 0) :=
  C6_sixteen_in_thirtytwo_roundtrip.2 (-7) 3 2 1 0 (by decide) (by decide)
    (by decide) (by decide) (by decide) (by decide) (by decide)

/-- C9.  Every `WindowConfigs` reachable through the public interface — any
sequence of builder setter calls followed by `build`, or any successful
`read_from` — has each presence bit of its mask set iff the corresponding
optional field holds a value. -/
theorem C9_mask_presence_invariant :
    (∀ ops : List BuilderOp,
       ((applyOps ops WindowConfigsBuilder.new).build).mask =
         ((applyOps ops WindowConfigsBuilder.new).build).presenceMask) ∧
    ∀ (buf : List Nat) (c : WindowConfigs),
      WindowConfigs.read_from buf = .ok c → c.mask = c.presenceMask := by
  constructor
  · intro ops
    exact applyOps_maskInv ops WindowConfigsBuilder.new rfl
  · intro buf c h
    unfold WindowConfigs.read_from at h
    split at h
    · exact Except.noConfusion h
    rename_i mask buf1 hm
    split at h
    · exact Except.noConfusion h
    rename_i buf2 hadv
    split at h
    · exact Except.noConfusion h
    rename_i x buf3 sz3 h1
    split at h
    · exact Except.noConfusion h
    rename_i y buf4 sz4 h2
    split at h
    · exact Except.noConfusion h
    rename_i width buf5 sz5 h3
    split at h
    · exact Except.noConfusion h
    rename_i height buf6 sz6 h4
    split at h
    · exact Except.noConfusion h
    rename_i bw buf7 sz7 h5
    split at h
    · exact Except.noConfusion h
    rename_i sib buf8 sz8 h6
    split at h
    · exact Except.noConfusion h
    rename_i sm buf9 sz9 h7
    obtain rfl : _ = c := Except.ok.inj h
    show mask = _
    simp only [WindowConfigs.presenceMask]
    rw [read_set_value_isSome h1, read_set_value_isSome h2, read_set_value_isSome h3,
      read_set_value_isSome h4, read_set_value_isSome h5, read_set_value_isSome h6,
      read_set_value_isSome h7]

/-- Witness for C9: a one-call builder sequence and a concrete successful
decode. -/
theorem C9_mask_presence_invariant_witness :
    ((applyOps [BuilderOp.setX 5] WindowConfigsBuilder.new).build).mask =
      ((applyOps [BuilderOp.setX 5] WindowConfigsBuilder.new).build).presenceMask ∧
    (⟨4, WindowConfigMask.empty, none, none, none, none, none, none, none⟩ :
        WindowConfigs).mask =
      (⟨4, WindowConfigMask.empty, none, none, none, none, none, none, none⟩ :
        WindowConfigs).presenceMask :=
  ⟨C9_mask_presence_invariant.1 [BuilderOp.setX 5],
    C9_mask_presence_invariant.2 [0, 0, 0, 0] _ (by decide)⟩

/-- C10.  For every `WindowConfigs` produced by the builder, the narrowing
accessors `x`, `y`, `width`, `height` and `border_width` never panic (the
stored 32-bit value always fits its logical 16-bit type), and each returns
`some` of exactly the value last passed to its setter, or `none` if that
setter was never called. -/
theorem C10_built_accessors_never_panic (ops : List BuilderOp)
    (hwf : ∀ op ∈ ops, op.wf = true) :
    ((applyOps ops WindowConfigsBuilder.new).build).getX = some (lastSetX ops) ∧
    ((applyOps ops WindowConfigsBuilder.new).build).getY = some (lastSetY ops) ∧
    ((applyOps ops WindowConfigsBuilder.new).build).getWidth =
      some (lastSetWidth ops) ∧
    ((applyOps ops WindowConfigsBuilder.new).build).getHeight =
      some (lastSetHeight ops) ∧
    ((applyOps ops WindowConfigsBuilder.new).build).getBorderWidth =
      some (lastSetBorderWidth ops) := by
  have hnone16 : ∀ a ∈ (none : Option Int), -32768 ≤ a ∧ a < 32768 := by
    intro a ha; simp at ha
  have hnoneU16 : ∀ a ∈ (none : Option Nat), a < 65536 := by
    intro a ha; simp at ha
  refine ⟨?_, ?_, ?_, ?_, ?_⟩
  · show WindowConfigs.getX _ = _
    unfold WindowConfigs.getX lastSetX
    have hfx : ((applyOps ops WindowConfigsBuilder.new).build).x =
        ops.foldl updX none := applyOps_field_x ops WindowConfigsBuilder.new
    rw [hfx]
    rcases hv : ops.foldl updX none with _ | v
    · rfl
    · have hr := foldl_updX_range ops none hwf hnone16 v (by rw [hv]; rfl)
      simp [tryIntoI16, hr.1, hr.2]
  · show WindowConfigs.getY _ = _
    unfold WindowConfigs.getY lastSetY
    have hfy : ((applyOps ops WindowConfigsBuilder.new).build).y =
        ops.foldl updY none := applyOps_field_y ops WindowConfigsBuilder.new
    rw [hfy]
    rcases hv : ops.foldl updY none with _ | v
    · rfl
    · have hr := foldl_updY_range ops none hwf hnone16 v (by rw [hv]; rfl)
      simp [tryIntoI16, hr.1, hr.2]
  · show WindowConfigs.getWidth _ = _
    unfold WindowConfigs.getWidth lastSetWidth
    have hfw : ((applyOps ops WindowConfigsBuilder.new).build).width =
        ops.foldl updWidth none := applyOps_field_width ops WindowConfigsBuilder.new
    rw [hfw]
    rcases hv : ops.foldl updWidth none with _ | v
    · rfl
    · have hr := foldl_updWidth_range ops none hwf hnoneU16 v (by rw [hv]; rfl)
      simp [tryIntoU16, hr]
  · show WindowConfigs.getHeight _ = _
    unfold WindowConfigs.getHeight lastSetHeight
    have hfh : ((applyOps ops WindowConfigsBuilder.new).build).height =
        ops.foldl updHeight none := applyOps_field_height ops WindowConfigsBuilder.new
    rw [hfh]
    rcases hv : ops.foldl updHeight none with _ | v
    · rfl
    · have hr := foldl_updHeight_range ops none hwf hnoneU16 v (by rw [hv]; rfl)
      simp [tryIntoU16, hr]
  · show WindowConfigs.getBorderWidth _ = _
    unfold WindowConfigs.getBorderWidth lastSetBorderWidth
    have hfb : ((applyOps ops WindowConfigsBuilder.new).build).border_width =
        ops.foldl updBorderWidth none :=
      applyOps_field_border_width ops WindowConfigsBuilder.new
    rw [hfb]
    rcases hv : ops.foldl updBorderWidth none with _ | v
    · rfl
    · have hr := foldl_updBorderWidth_range ops none hwf hnoneU16 v (by rw [hv]; rfl)
      simp [tryIntoU16, hr]

/-- Witness for C10: a sequence that sets `x` twice (the second value wins)
and `width` once. -/
theorem C10_built_accessors_never_panic_witness :
    ((applyOps [BuilderOp.setX 4, BuilderOp.setX (-1), BuilderOp.setWidth 7]
        WindowConfigsBuilder.new).build).getX = some (some (-1)) ∧
    ((applyOps [BuilderOp.setX 4, BuilderOp.setX (-1), BuilderOp.setWidth 7]
        WindowConfigsBuilder.new).build).getWidth = some (some 7) := by
  have h := C10_built_accessors_never_panic
    [BuilderOp.setX 4, BuilderOp.setX (-1), BuilderOp.setWidth 7] (by decide)
  exact ⟨h.1.trans (by decide), h.2.2.1.trans (by decide)⟩

/-! ## Tagged-variant discriminants

`Enum::serialize_tokens` / `Enum::deserialize_tokens`
(`xrbk_macro/src/impls.rs`): the variants' discriminant expressions start at
`0`, each iteration appends `+ 1`, and a variant with an explicit
discriminant expression replaces the running expression with its own value.
A variant description is `none` (no explicit discriminant) or `some o` (an
explicit discriminant expression evaluating to `o`).  The write path emits
`(discrim) as u8`; the read path reads one byte and linear-matches it
against the same evaluated values, falling through to an
`UnrecognizedDiscriminant` error carrying the byte read.  The claims under
test concern the discriminant byte; the instance types involved (such as
stacking modes) are field-less, so variant payloads are empty here. -/

def assignDiscrims : List (Option Nat) → Nat → List Nat
  | [], _ => []
  | none :: rest, d => d :: assignDiscrims rest (d + 1)
  | some o :: rest, _ => o :: assignDiscrims rest (o + 1)

/-- The discriminant byte written for variant `i` (`writer.put_u8(discrim as
u8)`), or `none` when `i` is not a variant of the type. -/
def enumWriteDiscrim (ds : List (Option Nat)) (i : Nat) : Option (List Nat) :=
  ((assignDiscrims ds 0).get? i).map putU8

/-- The generated `read_from`: read one discriminant byte, linear-match in
declaration order, and fall through to `UnrecognizedDiscriminant` with the
byte read.  Returns the index of the matched variant. -/
def enumRead (ds : List (Option Nat)) : List Nat → ReadResult (Nat × List Nat)
  | [] => .error .bufferUnderrun
  | b :: rest =>
    match (assignDiscrims ds 0).findIdx? (fun d => d % 256 == b) with
    | some i => .ok (i, rest)
    | none => .error (.unrecognizedDiscriminant b)

theorem assignDiscrims_cons (v : Option Nat) (rest : List (Option Nat)) (start : Nat) :
    assignDiscrims (v :: rest) start =
      v.getD start :: assignDiscrims rest (v.getD start + 1) := by
  cases v <;> rfl

theorem assignDiscrims_override (ds : List (Option Nat)) :
    ∀ (start i o : Nat), ds.get? i = some (some o) →
      (assignDiscrims ds start).get? i = some o := by
  induction ds with
  | nil => intro start i o h; simp at h
  | cons v rest ih =>
    intro start i o h
    rw [assignDiscrims_cons]
    cases i with
    | zero =>
      simp only [List.get?_cons_zero, Option.some.injEq] at h
      subst h
      rfl
    | succ j =>
      simp only [List.get?_cons_succ] at h ⊢
      exact ih _ j o h

theorem assignDiscrims_head_default (ds : List (Option Nat)) (start : Nat)
    (h : ds.get? 0 = some none) :
    (assignDiscrims ds start).get? 0 = some start := by
  cases ds with
  | nil => simp at h
  | cons v rest =>
    simp only [List.get?_cons_zero, Option.some.injEq] at h
    subst h
    rfl

theorem assignDiscrims_succ_default (ds : List (Option Nat)) :
    ∀ (start j : Nat), ds.get? (j + 1) = some none →
      ∃ p, (assignDiscrims ds start).get? j = some p ∧
        (assignDiscrims ds start).get? (j + 1) = some (p + 1) := by
  induction ds with
  | nil => intro start j h; simp at h
  | cons v rest ih =>
    intro start j h
    simp only [List.get?_cons_succ] at h
    rw [assignDiscrims_cons]
    cases j with
    | zero =>
      refine ⟨v.getD start, rfl, ?_⟩
      simpa using assignDiscrims_head_default rest (v.getD start + 1) h
    | succ k =>
      obtain ⟨p, hp1, hp2⟩ := ih (v.getD start + 1) k h
      exact ⟨p, by simpa using hp1, by simpa using hp2⟩

theorem findIdx?_none_of_all {α : Type} (p : α → Bool) :
    ∀ (l : List α) (i : Nat), (∀ x ∈ l, p x = false) →
      List.findIdx? p l i = none := by
  intro l
  induction l with
  | nil => intro i _; rfl
  | cons a rest ih =>
    intro i h
    have ha := h a (List.mem_cons_self _ _)
    simp only [List.findIdx?, ha, cond_false]
    exact ih (i + 1) (fun x hx => h x (List.mem_cons_of_mem a hx))

theorem findIdx?_some_of_mem {α : Type} (p : α → Bool) :
    ∀ (l : List α) (i : Nat), (∃ x ∈ l, p x = true) →
      ∃ j, List.findIdx? p l i = some j := by
  intro l
  induction l with
  | nil => intro i h; obtain ⟨x, hx, _⟩ := h; simp at hx
  | cons a rest ih =>
    intro i h
    by_cases hpa : p a = true
    · exact ⟨i, by simp [List.findIdx?, hpa]⟩
    · obtain ⟨x, hx, hpx⟩ := h
      rcases List.mem_cons.mp hx with rfl | hx'
      · exact absurd hpx hpa
      · obtain ⟨j, hj⟩ := ih (i + 1) ⟨x, hx', hpx⟩
        simp only [List.findIdx?, Bool.not_eq_true] at hpa ⊢
        rw [hpa]
        exact ⟨j, hj⟩

/-- C4.  Discriminants are assigned sequentially: an unannotated variant at
the head of the list gets the running value (`0` at the start), an explicit
override fixes its own case's value, and every following unannotated case
continues from its predecessor's value plus one.  In particular `A, B = 5, C`
is assigned `[0, 5, 6]`, and decoding the discriminant byte `6` yields case
`C` (index 2). -/
theorem C4_discriminant_continuation :
    (∀ (ds : List (Option Nat)) (start i o : Nat),
       ds.get? i = some (some o) → (assignDiscrims ds start).get? i = some o) ∧
    (∀ (ds : List (Option Nat)) (start : Nat),
       ds.get? 0 = some none → (assignDiscrims ds start).get? 0 = some start) ∧
    (∀ (ds : List (Option Nat)) (start j : Nat),
       ds.get? (j + 1) = some none →
         ∃ p, (assignDiscrims ds start).get? j = some p ∧
           (assignDiscrims ds start).get? (j + 1) = some (p + 1)) ∧
    assignDiscrims [none, some 5, none] 0 = [0, 5, 6] ∧
    enumWriteDiscrim [none, some 5, none] 0 = some [0] ∧
    enumWriteDiscrim [none, some 5, none] 1 = some [5] ∧
    enumWriteDiscrim [none, some 5, none] 2 = some [6] ∧
    enumRead [none, some 5, none] [6] = .ok (2, []) := by
  refine ⟨?_, ?_, ?_, rfl, rfl, rfl, rfl, rfl⟩
  · intro ds start i o h
    exact assignDiscrims_override ds start i o h
  · intro ds start h
    exact assignDiscrims_head_default ds start h
  · intro ds start j h
    exact assignDiscrims_succ_default ds start j h

/-- Witness for C4 at concrete inputs: an override at index 1 of `A, B = 5,
C` is kept, and index 2 continues from it. -/
theorem C4_discriminant_continuation_witness :
    (assignDiscrims [none, some 5, none] 0).get? 1 = some 5 ∧
    ∃ p, (assignDiscrims [none, some 5, none] 0).get? 1 = some p ∧
      (assignDiscrims [none, some 5, none] 0).get? 2 = some (p + 1) :=
  ⟨C4_discriminant_continuation.1 [none, some 5, none] 0 1 5 rfl,
    C4_discriminant_continuation.2.2.1 [none, some 5, none] 0 1 rfl⟩

/-- C5.  Decoding a discriminant byte matching none of the type's evaluated
case discriminants fails with `UnrecognizedDiscriminant` carrying the raw
value read, while a matching discriminant never produces that error; the
stack-mode slot instance reads a `u32` and rejects every value above `4`
with `UnrecognizedDiscriminant` of exactly that value. -/
theorem C5_unrecognized_discriminant :
    (∀ (ds : List (Option Nat)) (b : Nat) (rest : List Nat),
       (∀ d ∈ assignDiscrims ds 0, d % 256 ≠ b) →
         enumRead ds (b :: rest) = .error (.unrecognizedDiscriminant b)) ∧
    (∀ (ds : List (Option Nat)) (b : Nat) (rest : List Nat),
       (∃ d ∈ assignDiscrims ds 0, d % 256 = b) →
         ∀ e, enumRead ds (b :: rest) ≠ .error e) ∧
    (∀ (n : Nat) (rest : List Nat), 4 < n → n < 4294967296 →
       stackModeRead (putU32 n ++ rest) = .error (.unrecognizedDiscriminant n)) ∧
    (∀ (m : StackMode) (rest : List Nat) (e : ReadError),
       stackModeRead (stackModeWrite m ++ rest) ≠ .error e) := by
  refine ⟨?_, ?_, ?_, ?_⟩
  · intro ds b rest h
    have hall : ∀ d ∈ assignDiscrims ds 0, (fun d => d % 256 == b) d = false := by
      intro d hd
      simpa using h d hd
    simp only [enumRead]
    rw [findIdx?_none_of_all _ (assignDiscrims ds 0) 0 hall]
  · intro ds b rest h e
    have hsome : ∃ d ∈ assignDiscrims ds 0, (fun d => d % 256 == b) d = true := by
      obtain ⟨d, hd, hdb⟩ := h
      exact ⟨d, hd, by simpa using hdb⟩
    obtain ⟨j, hj⟩ := findIdx?_some_of_mem _ (assignDiscrims ds 0) 0 hsome
    simp only [enumRead]
    rw [hj]
    simp
  · intro n rest h4 hlt
    unfold stackModeRead
    rw [getU32_putU32 n hlt]
    simp only []
    rw [if_neg (by omega : ¬ n = 0), if_neg (by omega : ¬ n = 1),
      if_neg (by omega : ¬ n = 2), if_neg (by omega : ¬ n = 3),
      if_neg (by omega : ¬ n = 4)]
  · intro m rest e
    rw [stackModeRead_stackModeWrite]
    simp

/-- Witness for C5: the type `A, B = 5, C` rejects the byte `2` with
`UnrecognizedDiscriminant 2` and accepts the byte `5`; the stack-mode slot
rejects `7`, and accepts every written mode. -/
theorem C5_unrecognized_discriminant_witness :
    enumRead [none, some 5, none] [2] = .error (.unrecognizedDiscriminant 2) ∧
    (∀ e, enumRead [none, some 5, none] [5] ≠ .error e) ∧
    stackModeRead (putU32 7) = .error (.unrecognizedDiscriminant 7) ∧
    ∀ e, stackModeRead (stackModeWrite .opposite) ≠ .error e := by
  refine ⟨?_, ?_, ?_, ?_⟩
  · exact C5_unrecognized_discriminant.1 [none, some 5, none] 2 [] (by decide)
  · exact C5_unrecognized_discriminant.2.1 [none, some 5, none] 5 [] (by decide)
  · have h := C5_unrecognized_discriminant.2.2.1 7 [] (by decide) (by decide)
    simpa using h
  · intro e
    have h := C5_unrecognized_discriminant.2.2.2 StackMode.opposite [] e
    simpa using h

/-! ## Message header framing

Abstract descriptions of one generated message implementation applied to one
value, following `Request::impl_writable`, `Reply::impl_writable` and
`Event::impl_writable` (`xrbk_macro/src/definition/expansion/writable.rs`)
and the `length` placeholders of `Request::impl_request_tokens` /
`Reply::impl_reply_tokens` (`xrbk_macro/src/impls.rs`).  `metabyteField` is
the one-byte serialization of the `#[metabyte]`-designated element, when the
type has one; `body` is the concatenated serialization of the remaining
(non-metabyte, non-sequence) elements. -/

structure RequestDesc where
  major : Nat
  minor : Option Nat
  metabyteField : Option Nat
  body : List Nat
deriving DecidableEq, Repr

/-- The generated `xrb::Request::length` (`impls.rs`, `impl_request_tokens`):
a constant `0` placeholder (its comment promises the length in 4-byte units,
left as a TODO). -/
def generatedRequestLength (_ : RequestDesc) : Nat := 0

/-- The byte landing in a request's metabyte position: the minor opcode if
the request defines one, else the designated metabyte field, else `0`. -/
def requestMetabyteByte (r : RequestDesc) : Nat :=
  match r.minor with
  | some m => m % 256
  | none =>
    match r.metabyteField with
    | some b => b % 256
    | none => 0

/-- The generated request `write_to` (`Request::impl_writable`): major
opcode, metabyte position (minor opcode / metabyte element / `0`), `u16`
length, then the remaining elements. -/
def RequestDesc.write_to (r : RequestDesc) : List Nat :=
  let buf : List Nat := []
  let buf := buf ++ putU8 r.major
  let buf := buf ++
    (match r.minor with
     | some m => putU8 m
     | none =>
       match r.metabyteField with
       | some b => putU8 b
       | none => putU8 0)
  let buf := buf ++ putU16 (generatedRequestLength r)
  buf ++ r.body

structure ReplyDesc where
  metabyteField : Option Nat
  seq : Nat
  body : List Nat
deriving DecidableEq, Repr

/-- The generated `xrb::Reply::length` (`impls.rs`, `impl_reply_tokens`): a
constant `0` placeholder (its comment promises the number of 4-byte units
beyond the 32-byte minimum, left as a TODO). -/
def generatedReplyLength (_ : ReplyDesc) : Nat := 0

/-- The generated reply `write_to` (`Reply::impl_writable`): the byte `1`,
the metabyte position, the `u16` sequence field, the `u32` length, then the
remaining elements. -/
def ReplyDesc.write_to (r : ReplyDesc) : List Nat :=
  let buf : List Nat := []
  let buf := buf ++ putU8 1
  let buf := buf ++
    (match r.metabyteField with
     | some b => putU8 b
     | none => putU8 0)
  let buf := buf ++ putU16 r.seq
  let buf := buf ++ putU32 (generatedReplyLength r)
  buf ++ r.body

structure EventDesc where
  code : Nat
  seq : Option Nat
  metabyteField : Option Nat
  body : List Nat
deriving DecidableEq, Repr

/-- The byte landing in an event's metabyte position when the event carries
a sequence field: the designated metabyte element, else `0`. -/
def eventMetabyteByte (e : EventDesc) : Nat :=
  match e.metabyteField with
  | some b => b % 256
  | none => 0

/-- The generated event `write_to` (`Event::impl_writable`): the event code;
then, exactly when the type carries a sequence field, the metabyte position
followed by the `u16` sequence value; then the remaining elements. -/
def EventDesc.write_to (e : EventDesc) : List Nat :=
  let buf : List Nat := []
  let buf := buf ++ putU8 e.code
  match e.seq with
  | none => buf ++ e.body
  | some s =>
    let buf := buf ++
      (match e.metabyteField with
       | some b => putU8 b
       | none => putU8 0)
    let buf := buf ++ putU16 s
    buf ++ e.body

/-- C7.  A serialized request is exactly: the major opcode byte, then the
metabyte (the minor opcode when the request defines one, else the designated
metabyte field, else `0`), then the 16-bit length field, then the remaining
body items. -/
theorem C7_request_serialization_order (r : RequestDesc) :
    r.write_to = [r.major % 256, requestMetabyteByte r] ++
      putU16 (generatedRequestLength r) ++ r.body ∧
    (∀ m, r.minor = some m → requestMetabyteByte r = m % 256) ∧
    (∀ b, r.minor = none → r.metabyteField = some b →
      requestMetabyteByte r = b % 256) ∧
    (r.minor = none → r.metabyteField = none → requestMetabyteByte r = 0) := by
  refine ⟨?_, ?_, ?_, ?_⟩
  · unfold RequestDesc.write_to requestMetabyteByte
    rcases r with ⟨major, minor, mb, body⟩
    rcases minor with _ | m
    · rcases mb with _ | b <;> simp [putU8, putU16]
    · simp [putU8, putU16]
  · intro m hm
    unfold requestMetabyteByte
    rw [hm]
  · intro b hm hb
    unfold requestMetabyteByte
    rw [hm, hb]
  · intro hm hb
    unfold requestMetabyteByte
    rw [hm, hb]

/-- Witness for C7: a request with no minor opcode and a metabyte field. -/
theorem C7_request_serialization_order_witness :
    RequestDesc.write_to ⟨1, none, some 7, [9, 9]⟩ = [1, 7, 0, 0, 9, 9] ∧
    requestMetabyteByte ⟨1, none, some 7, [9, 9]⟩ = 7 := by
  have h := C7_request_serialization_order ⟨1, none, some 7, [9, 9]⟩
  exact ⟨h.1.trans (by decide), (h.2.2.1 7 rfl rfl).trans (by decide)⟩

/-- C8.  A serialized event starts with the event code byte; exactly when
the event type carries a sequence field, the metabyte (designated field or
`0`) and the 16-bit sequence value follow, giving a 4-byte header;
an event type without a sequence field emits nothing further before its
body, giving a single-byte header. -/
theorem C8_event_serialization_header (e : EventDesc) :
    (∀ s, e.seq = some s →
       e.write_to = [e.code % 256, eventMetabyteByte e] ++ putU16 s ++ e.body ∧
       e.write_to.length = 4 + e.body.length) ∧
    (e.seq = none →
       e.write_to = [e.code % 256] ++ e.body ∧
       e.write_to.length = 1 + e.body.length) := by
  constructor
  · intro s hs
    unfold EventDesc.write_to eventMetabyteByte
    rw [hs]
    rcases e with ⟨code, seq, mb, body⟩
    rcases mb with _ | b <;> simp [putU8, putU16] <;> omega
  · intro hs
    unfold EventDesc.write_to
    rw [hs]
    simp [putU8]
    omega

/-- Witness for C8: an event with a sequence field and one without. -/
theorem C8_event_serialization_header_witness :
    EventDesc.write_to ⟨2, some 300, some 9, [5]⟩ = [2, 9, 1, 44, 5] ∧
    EventDesc.write_to ⟨2, none, none, [5]⟩ = [2, 5] ∧
    (EventDesc.write_to ⟨2, none, none, [5]⟩).length = 1 + 1 := by
  have h1 := (C8_event_serialization_header ⟨2, some 300, some 9, [5]⟩).1 300 rfl
  have h2 := (C8_event_serialization_header ⟨2, none, none, [5]⟩).2 rfl
  exact ⟨h1.1.trans (by decide), h2.1.trans (by decide), h2.2.trans (by decide)⟩

/-- C2.  The claimed length arithmetic fails on the code: the generated
`Request::length` and `Reply::length` are constant-`0` placeholders.  A
request with an 8-byte body serializes to 12 bytes, so the claim requires
`length = 3`, but the generated implementation returns `0`; a reply with a
28-byte body serializes to 36 bytes, so the claim requires `length = 1`,
but the generated implementation returns `0`.  (The repository's own tests,
e.g. `create_window_length_is_correct`, assert the claimed arithmetic.) -/
theorem C2_generated_length_placeholder :
    (RequestDesc.write_to ⟨1, none, none, List.replicate 8 0⟩).length = 12 ∧
    (RequestDesc.write_to ⟨1, none, none, List.replicate 8 0⟩).length / 4 = 3 ∧
    generatedRequestLength ⟨1, none, none, List.replicate 8 0⟩ = 0 ∧
    generatedRequestLength ⟨1, none, none, List.replicate 8 0⟩ ≠ 3 ∧
    (ReplyDesc.write_to ⟨none, 0, List.replicate 28 0⟩).length = 36 ∧
    ((ReplyDesc.write_to ⟨none, 0, List.replicate 28 0⟩).length - 32) / 4 = 1 ∧
    generatedReplyLength ⟨none, 0, List.replicate 28 0⟩ = 0 ∧
    generatedReplyLength ⟨none, 0, List.replicate 28 0⟩ ≠ 1 := by
  decide
